import Mathlib

/-!
Verification of the Move component of the splide slider.

The Move component computes and applies the geometric position of the
sliding list. Two historical designs of the component are present in the
repository: the earlier design (with a `waiting` busy flag) and the revised
design (with cancel-and-restart and a shifted notification). Functions that
are identical in both designs are embedded once; the differing ones live in
the `Earlier` and `Revised` namespaces.

Positions are modelled as rational numbers. The collaborators that the
component only consumes (layout geometry, direction resolver, controller,
slide registry) are modelled as fields of a context structure `MoveCtx`:
the layout queries are arbitrary functions, the direction resolver `orient`
is multiplication by a sign factor `osign` (the source multiplies by `1`
for right-to-left and `-1` otherwise), and the current DOM position read by
`getPosition` is the field `curPos`.
-/

namespace Splide

/-- The `focus` option: `center`, or a numeric fraction.  A numeric focus
`f` contributes an offset of `f * slideSize(index)`; the source coerces any
non-numeric focus to an offset of `0`, which coincides with `num 0`. -/
inductive Focus where
  | center : Focus
  | num : ℚ → Focus

/-- The environment of one Move component instance: geometry queries of the
Layout component, the direction sign, the options, the controller end
index, the slide registry (list of slide indices in scan order) and the
position currently rendered in the DOM. -/
structure MoveCtx where
  /-- Layout.slideSize(index) without gap. -/
  slideSize : ℤ → ℚ
  /-- Layout.slideSize(index, true), including the gap. -/
  slideSizeGap : ℤ → ℚ
  /-- Layout.totalSize(index): cumulative size up to the index, inclusive. -/
  totalSize : ℤ → ℚ
  /-- Layout.listSize(). -/
  listSize : ℚ
  /-- Layout.sliderSize(): one full cycle length. -/
  sliderSize : ℚ
  /-- Direction.orient multiplies by this sign factor. -/
  osign : ℚ
  /-- The position currently rendered in the DOM, read by getPosition(). -/
  curPos : ℚ
  /-- Controller.getEnd(). -/
  getEnd : ℤ
  /-- options.focus. -/
  focus : Focus
  /-- Truthiness of options.trimSpace. -/
  trimSpace : Bool
  /-- Splide.is(SLIDE). -/
  isSlide : Bool
  /-- Splide.is(LOOP). -/
  isLoop : Bool
  /-- Splide.is(FADE). -/
  isFade : Bool
  /-- options.waitForTransition (earlier design only). -/
  waitForTransition : Bool
  /-- Indices of Components.Slides.get(), in scan order. -/
  slides : List ℤ

/-- Direction.orient(value). -/
def orient (ctx : MoveCtx) (value : ℚ) : ℚ :=
  ctx.osign * value

/-- Modelled from the spec: the clamp helper is imported from the utils
module, which is not among the given sources.  The spec asks trim to clamp
the position into the interval between 0 and orient(sliderSize - listSize)
(the second bound is negative for left-to-right orientation), so clamp
confines the number between the two given bounds in either order. -/
def clamp (number x y : ℚ) : ℚ :=
  min (max (min x y) number) (max x y)

/-- Modelled from the spec: the sign helper is imported from the utils
module, which is not among the given sources.  The spec uses sign(excess)
in the earlier shift formula in its standard mathematical meaning. -/
def sign (x : ℚ) : ℚ :=
  if 0 < x then 1 else if x < 0 then -1 else 0

/-- Move.offset(index): the alignment offset. -/
def offset (ctx : MoveCtx) (index : ℤ) : ℚ :=
  match ctx.focus with
  | Focus.center => (ctx.listSize - ctx.slideSizeGap index) / 2
  | Focus.num f => f * ctx.slideSize index

/-- Move.trim(position): clamps the position into the band between 0 and
orient(sliderSize - listSize) when options.trimSpace is truthy and the
slider is in SLIDE mode. -/
def trim (ctx : MoveCtx) (position : ℚ) : ℚ :=
  if ctx.trimSpace && ctx.isSlide then
    clamp position 0 (orient ctx (ctx.sliderSize - ctx.listSize))
  else
    position

/-- Move.toPosition(index, trimming): orient(totalSize(index - 1) -
offset(index)), trimmed when requested. -/
def toPosition (ctx : MoveCtx) (index : ℤ) (trimming : Bool) : ℚ :=
  let position := orient ctx (ctx.totalSize (index - 1) - offset ctx index)
  if trimming then trim ctx position else position

/-- Move.getLimit(max). -/
def getLimit (ctx : MoveCtx) (max : Bool) : ℚ :=
  toPosition ctx (if max then ctx.getEnd else 0) ctx.trimSpace

/-- Move.exceededLimit(max, position).  The first argument models the
optional boolean (`none` tests both limits), the second the optional
position (`none` tests the current position). -/
def exceededLimit (ctx : MoveCtx) (mx : Option Bool) (position : Option ℚ) : Bool :=
  let p := position.getD ctx.curPos
  (decide (mx ≠ some true) && decide (orient ctx p < orient ctx (getLimit ctx false))) ||
  (decide (mx ≠ some false) && decide (orient ctx p > orient ctx (getLimit ctx true)))

/-- The scan loop of Move.toIndex: walks the slide registry, keeping the
index of the smallest distance seen so far (`none` models the initial
Infinity), and stops at the first slide whose distance is worse. -/
def toIndexGo (ctx : MoveCtx) (position : ℚ) : List ℤ → ℤ → Option ℚ → ℤ
  | [], index, _ => index
  | s :: rest, index, minDistance =>
    let distance := |toPosition ctx s true - position|
    match minDistance with
    | none => toIndexGo ctx position rest s (some distance)
    | some m =>
      if distance ≤ m then toIndexGo ctx position rest s (some distance) else index

/-- Move.toIndex(position): the index of the slide closest to the position,
found by the short-circuited ascending scan. -/
def toIndex (ctx : MoveCtx) (position : ℚ) : ℤ :=
  toIndexGo ctx position ctx.slides 0 none

namespace Earlier

/-- Move.shift(position, backwards) of the earlier design:
position - sign(excess) * size * ceil(|excess| / size). -/
def shift (ctx : MoveCtx) (position : ℚ) (backwards : Bool) : ℚ :=
  let excess := position - getLimit ctx backwards
  let size := ctx.sliderSize
  position - sign excess * size * ((⌈|excess| / size⌉ : ℤ) : ℚ)

/-- Move.loop(position) of the earlier design: suppressed while `waiting`
is set; otherwise wraps the position via shift when it exceeds a limit
while moving strictly in that direction. -/
def loop (ctx : MoveCtx) (waiting : Bool) (position : ℚ) : ℚ :=
  if !waiting && ctx.isLoop then
    let diff := orient ctx (position - ctx.curPos)
    let exceededMin := exceededLimit ctx (some false) (some position) && decide (diff < 0)
    let exceededMax := exceededLimit ctx (some true) (some position) && decide (diff > 0)
    if exceededMin || exceededMax then shift ctx position exceededMax else position
  else
    position

end Earlier

namespace Revised

/-- Move.shift(position, backwards) of the revised design:
position - orient(size * (ceil(|excess| / size) || 1)) * (backwards ? 1 : -1). -/
def shift (ctx : MoveCtx) (position : ℚ) (backwards : Bool) : ℚ :=
  let excess := position - getLimit ctx backwards
  let size := ctx.sliderSize
  let c : ℤ := ⌈|excess| / size⌉
  let c2 : ℤ := if c = 0 then 1 else c
  position - orient ctx (size * (c2 : ℚ)) * (if backwards then 1 else -1)

/-- Move.loop(position) of the revised design: no waiting guard. -/
def loop (ctx : MoveCtx) (position : ℚ) : ℚ :=
  if ctx.isLoop then
    let diff := orient ctx (position - ctx.curPos)
    let exceededMin := exceededLimit ctx (some false) (some position) && decide (diff < 0)
    let exceededMax := exceededLimit ctx (some true) (some position) && decide (diff > 0)
    if exceededMin || exceededMax then shift ctx position exceededMax else position
  else
    position

/-- Move.translate(position, preventLoop) of the revised design, modelled
by its observable outcome: the destination written to the DOM (`none` when
the slider is in FADE mode and nothing is written) and whether the shifted
notification is emitted. -/
def translate (ctx : MoveCtx) (position : ℚ) (preventLoop : Bool) : Option ℚ × Bool :=
  if ctx.isFade then (none, false)
  else
    let destination := if preventLoop then position else loop ctx position
    (some destination, decide (position ≠ destination))

end Revised

/-- The two states of the Splide state machine observed by the Move
component. -/
inductive SpState where
  | IDLE : SpState
  | MOVING : SpState
deriving DecidableEq

/-- The mutable state touched by the synchronous part of the earlier
Move.move: the waiting flag, the Splide state, the list of emitted move
events (index, prev, dest) and the list of destinations passed to
Transition.start. -/
structure MState where
  waiting : Bool
  status : SpState
  events : List (ℤ × ℤ × ℤ)
  started : List ℤ
deriving DecidableEq

namespace Earlier

/-- Move.isBusy() of the earlier design: the waiting flag. -/
def isBusy (s : MState) : Bool :=
  s.waiting

/-- The synchronous part of Move.move(dest, index, prev) of the earlier
design: when not busy, set the waiting flag to (dest !== index) ||
options.waitForTransition, enter MOVING, emit the move event and start the
transition toward dest; when busy, do nothing.  (The completion callback,
which later clears the flag and emits the moved event, runs
asynchronously and is not part of this step.) -/
def move (ctx : MoveCtx) (s : MState) (dest index prev : ℤ) : MState :=
  if !isBusy s then
    let looping := decide (dest ≠ index)
    { s with
      waiting := looping || ctx.waitForTransition
      status := SpState.MOVING
      events := s.events ++ [(index, prev, dest)]
      started := s.started ++ [dest] }
  else
    s

end Earlier

/-- The slide registry 0, 1, ..., n-1 used by the non-cyclic mode, as a
list of integers. -/
def myRangeZ (a k : ℕ) : List ℤ :=
  (List.range' a k).map (fun t => (t : ℤ))

/-- Concrete context for the spec scenario: 5 slides of uniform width 100,
no gap, no loop, trimming disabled, alignment 0 and getEnd() = 4.  The
direction resolver is external to the component; the orientation sign is
taken to be 1 here, matching the positive positions of the scenario. -/
def ctxFive : MoveCtx where
  slideSize := fun _ => 100
  slideSizeGap := fun _ => 100
  totalSize := fun j => ((j + 1 : ℤ) : ℚ) * 100
  listSize := 500
  sliderSize := 500
  osign := 1
  curPos := 0
  getEnd := 4
  focus := Focus.num 0
  trimSpace := false
  isSlide := true
  isLoop := false
  isFade := false
  waitForTransition := true
  slides := [0, 1, 2, 3, 4]

/-- Concrete context in cyclic mode: the same 5 uniform slides, loop mode
enabled, the current rendered position 520 beyond the max limit 400. -/
def ctxLoop : MoveCtx where
  slideSize := fun _ => 100
  slideSizeGap := fun _ => 100
  totalSize := fun j => ((j + 1 : ℤ) : ℚ) * 100
  listSize := 500
  sliderSize := 500
  osign := 1
  curPos := 520
  getEnd := 4
  focus := Focus.num 0
  trimSpace := false
  isSlide := false
  isLoop := true
  isFade := false
  waitForTransition := true
  slides := [0, 1, 2, 3, 4]

/-- Concrete context with active edge trimming: 5 uniform slides of width
100, a list size of 200, orientation sign -1 (left-to-right), trimSpace
enabled, SLIDE mode.  The trim band is the interval between -300 and 0, so
the raw position -400 of slide 4 is clamped to -300, which is exactly the
untrimmed position of slide 3. -/
def ctxRT : MoveCtx where
  slideSize := fun _ => 100
  slideSizeGap := fun _ => 100
  totalSize := fun j => ((j + 1 : ℤ) : ℚ) * 100
  listSize := 200
  sliderSize := 500
  osign := -1
  curPos := 0
  getEnd := 4
  focus := Focus.num 0
  trimSpace := true
  isSlide := true
  isLoop := false
  isFade := false
  waitForTransition := true
  slides := [0, 1, 2, 3, 4]

/-- Concrete context with two uniform slides at positions 0 and 100 and no
trimming; the query position 50 is equidistant from both. -/
def ctxTie : MoveCtx where
  slideSize := fun _ => 100
  slideSizeGap := fun _ => 100
  totalSize := fun j => ((j + 1 : ℤ) : ℚ) * 100
  listSize := 200
  sliderSize := 200
  osign := 1
  curPos := 0
  getEnd := 1
  focus := Focus.num 0
  trimSpace := false
  isSlide := true
  isLoop := false
  isFade := false
  waitForTransition := true
  slides := [0, 1]

/-- ctxTie with options.waitForTransition disabled. -/
def ctxNoWait : MoveCtx :=
  { ctxTie with waitForTransition := false }

/-- The initial Move state: idle, flag clear, nothing emitted or started. -/
def initialState : MState where
  waiting := false
  status := SpState.IDLE
  events := []
  started := []

/-- A busy Move state: the waiting flag is set while a move is in flight. -/
def busyState : MState where
  waiting := true
  status := SpState.MOVING
  events := [(0, 1, 0)]
  started := [0]

/-- Claim C9: with 5 slides of uniform width 100, no gap, non-loop mode,
trimming disabled, alignment 0 and getEnd() = 4, toPosition(0) = 0,
toPosition(4) = 400 and getLimit(true) = 400. -/
theorem scenario_five_slides :
    toPosition ctxFive 0 true = 0 ∧
    toPosition ctxFive 4 true = 400 ∧
    getLimit ctxFive true = 400 := by
  refine ⟨?_, ?_, ?_⟩ <;>
    norm_num [toPosition, trim, offset, orient, getLimit, clamp, ctxFive]

/-- Claim C4 (amended): in the earlier design, calling move while busy
(isBusy() true, i.e. the waiting flag is set) is a no-op: the state is
returned unchanged, so no notification is emitted and the transition driver
is not started. -/
theorem move_while_busy_noop (ctx : MoveCtx) (s : MState) (dest index prev : ℤ)
    (h : Earlier.isBusy s = true) :
    Earlier.move ctx s dest index prev = s := by
  simp [Earlier.move, h]

/-- Witness for move_while_busy_noop at a concrete busy state. -/
theorem move_while_busy_noop_witness :
    Earlier.isBusy busyState = true ∧
    Earlier.move ctxNoWait busyState 1 1 0 = busyState :=
  ⟨rfl, move_while_busy_noop ctxNoWait busyState 1 1 0 rfl⟩

/-- Counterexample to claim C4 as stated: being in the MOVING state does
not make move a no-op.  With options.waitForTransition disabled, a
non-looping move (dest = index) enters MOVING with the waiting flag clear;
a second move issued in that state emits a new move notification and
starts the transition driver again. -/
theorem move_while_moving_not_noop :
    (Earlier.move ctxNoWait initialState 0 0 1).status = SpState.MOVING ∧
    (Earlier.move ctxNoWait initialState 0 0 1).waiting = false ∧
    (Earlier.move ctxNoWait (Earlier.move ctxNoWait initialState 0 0 1) 1 1 0).events ≠
      (Earlier.move ctxNoWait initialState 0 0 1).events ∧
    (Earlier.move ctxNoWait (Earlier.move ctxNoWait initialState 0 0 1) 1 1 0).started ≠
      (Earlier.move ctxNoWait initialState 0 0 1).started := by
  decide

/-- The clamp utility never goes below the smaller bound. -/
theorem min_le_clamp (v x y : ℚ) : min x y ≤ clamp v x y :=
  le_min (le_max_left _ _) ((min_le_left x y).trans (le_max_left x y))

/-- The clamp utility never goes above the larger bound. -/
theorem clamp_le_max (v x y : ℚ) : clamp v x y ≤ max x y :=
  min_le_right _ _

/-- The clamp utility fixes values already between the bounds. -/
theorem clamp_of_mem (v x y : ℚ) (h1 : min x y ≤ v) (h2 : v ≤ max x y) :
    clamp v x y = v := by
  unfold clamp
  rw [max_eq_right h1, min_eq_left h2]

/-- Claim C6: the max limit itself does not exceed the max limit, and any
position strictly beyond it in the orientation-adjusted direction does. -/
theorem exceededLimit_boundary (ctx : MoveCtx) :
    exceededLimit ctx (some true) (some (getLimit ctx true)) = false ∧
    ∀ eps : ℚ, 0 < orient ctx eps →
      exceededLimit ctx (some true) (some (getLimit ctx true + eps)) = true := by
  constructor
  · simp [exceededLimit]
  · intro eps heps
    rw [orient] at heps
    simp only [exceededLimit, Option.getD_some, orient, mul_add]
    have : ctx.osign * getLimit ctx true < ctx.osign * getLimit ctx true + ctx.osign * eps := by
      linarith
    simp [this]

/-- Witness for exceededLimit_boundary at a concrete context, with eps = 1. -/
theorem exceededLimit_boundary_witness :
    exceededLimit ctxLoop (some true) (some (getLimit ctxLoop true)) = false ∧
    0 < orient ctxLoop 1 ∧
    exceededLimit ctxLoop (some true) (some (getLimit ctxLoop true + 1)) = true := by
  have h := exceededLimit_boundary ctxLoop
  have h1 : 0 < orient ctxLoop 1 := by norm_num [orient, ctxLoop]
  exact ⟨h.1, h1, h.2 1 h1⟩

/-- Claim C7: with trimming requested, toPosition clamps the raw position
into the band between 0 and orient(sliderSize - listSize) exactly when
options.trimSpace is truthy and the slider is in SLIDE mode; otherwise the
raw untrimmed position is returned unchanged. -/
theorem toPosition_trimming_spec (ctx : MoveCtx) (index : ℤ) :
    (ctx.trimSpace = true ∧ ctx.isSlide = true →
      toPosition ctx index true =
        clamp (toPosition ctx index false) 0 (orient ctx (ctx.sliderSize - ctx.listSize)) ∧
      min 0 (orient ctx (ctx.sliderSize - ctx.listSize)) ≤ toPosition ctx index true ∧
      toPosition ctx index true ≤ max 0 (orient ctx (ctx.sliderSize - ctx.listSize))) ∧
    (¬(ctx.trimSpace = true ∧ ctx.isSlide = true) →
      toPosition ctx index true = toPosition ctx index false) := by
  constructor
  · rintro ⟨h1, h2⟩
    have heq : toPosition ctx index true =
        clamp (toPosition ctx index false) 0 (orient ctx (ctx.sliderSize - ctx.listSize)) := by
      simp [toPosition, trim, h1, h2]
    exact ⟨heq, heq ▸ min_le_clamp _ _ _, heq ▸ clamp_le_max _ _ _⟩
  · intro h
    have : (ctx.trimSpace && ctx.isSlide) = false := by
      cases hts : ctx.trimSpace <;> cases his : ctx.isSlide <;> simp_all
    simp [toPosition, trim, this]

/-- Witness for toPosition_trimming_spec: the trimming branch at ctxRT
(where slide 4 is clamped from -400 to -300) and the identity branch at
ctxFive. -/
theorem toPosition_trimming_spec_witness :
    (toPosition ctxRT 4 true =
      clamp (toPosition ctxRT 4 false) 0 (orient ctxRT (ctxRT.sliderSize - ctxRT.listSize)) ∧
     toPosition ctxRT 4 true = -300 ∧ toPosition ctxRT 4 false = -400) ∧
    toPosition ctxFive 4 true = toPosition ctxFive 4 false := by
  refine ⟨⟨((toPosition_trimming_spec ctxRT 4).1 ⟨rfl, rfl⟩).1, ?_, ?_⟩,
    (toPosition_trimming_spec ctxFive 4).2 (by simp [ctxFive])⟩ <;>
    norm_num [toPosition, trim, offset, orient, clamp, ctxRT]

/-- Claim C8: in the revised design, when the transition style uses
positional movement (not FADE), translate writes the input position itself
when preventLoop is set and loop(position) otherwise, and the shifted
notification is emitted exactly when the written destination differs from
the input position. -/
theorem translate_writes_and_emits (ctx : MoveCtx) (position : ℚ) (preventLoop : Bool)
    (h : ctx.isFade = false) :
    (Revised.translate ctx position preventLoop).1 =
      some (if preventLoop then position else Revised.loop ctx position) ∧
    ((Revised.translate ctx position preventLoop).2 = true ↔
      (if preventLoop then position else Revised.loop ctx position) ≠ position) := by
  constructor
  · simp [Revised.translate, h]
  · cases preventLoop
    · simp only [Revised.translate, h, Bool.false_eq_true, if_false, decide_eq_true_eq]
      exact ne_comm
    · simp [Revised.translate, h]

/-- Witness for translate_writes_and_emits: a wrap occurs at ctxLoop for
the input position 540, so the shifted notification fires. -/
theorem translate_writes_and_emits_witness :
    ctxLoop.isFade = false ∧
    ((Revised.translate ctxLoop 540 false).1 =
       some (if false then (540 : ℚ) else Revised.loop ctxLoop 540) ∧
     ((Revised.translate ctxLoop 540 false).2 = true ↔
       (if false then (540 : ℚ) else Revised.loop ctxLoop 540) ≠ 540)) :=
  ⟨rfl, translate_writes_and_emits ctxLoop 540 false rfl⟩

/-- Claim C10: a position equal to the current position (directional delta
zero) is returned unchanged by loop in both designs, even in cyclic mode
and even when it exceeds a limit, because the wrap fires only while moving
strictly toward the exceeded limit. -/
theorem loop_at_current_position (ctx : MoveCtx) (p : ℚ) (h : p = ctx.curPos) :
    Revised.loop ctx p = p ∧ ∀ waiting : Bool, Earlier.loop ctx waiting p = p := by
  subst h
  constructor
  · simp [Revised.loop, orient]
  · intro w
    simp [Earlier.loop, orient]

/-- Witness for loop_at_current_position: at ctxLoop the current position
520 exceeds the max limit 400 and cyclic mode is on, yet loop returns it
unchanged. -/
theorem loop_at_current_position_witness :
    ctxLoop.isLoop = true ∧
    exceededLimit ctxLoop none (some ctxLoop.curPos) = true ∧
    Revised.loop ctxLoop ctxLoop.curPos = ctxLoop.curPos ∧
    Earlier.loop ctxLoop false ctxLoop.curPos = ctxLoop.curPos := by
  refine ⟨rfl, ?_, (loop_at_current_position ctxLoop ctxLoop.curPos rfl).1,
    (loop_at_current_position ctxLoop ctxLoop.curPos rfl).2 false⟩
  norm_num [exceededLimit, orient, getLimit, toPosition, trim, offset, clamp, ctxLoop]
  decide

/-- Unfolded form of the earlier shift. -/
theorem earlier_shift_eq (ctx : MoveCtx) (p : ℚ) (b : Bool) :
    Earlier.shift ctx p b =
      p - sign (p - getLimit ctx b) * ctx.sliderSize *
        ((⌈|p - getLimit ctx b| / ctx.sliderSize⌉ : ℤ) : ℚ) := rfl

/-- Unfolded form of the revised shift. -/
theorem revised_shift_eq (ctx : MoveCtx) (p : ℚ) (b : Bool) :
    Revised.shift ctx p b =
      p - orient ctx (ctx.sliderSize *
          (((if (⌈|p - getLimit ctx b| / ctx.sliderSize⌉ : ℤ) = 0 then (1 : ℤ)
            else ⌈|p - getLimit ctx b| / ctx.sliderSize⌉) : ℤ) : ℚ)) *
        (if b then 1 else -1) := rfl

/-- The earlier shift changes the position by an integer multiple of the
cycle length. -/
theorem earlier_shift_sub (ctx : MoveCtx) (p : ℚ) (b : Bool) :
    ∃ k : ℤ, Earlier.shift ctx p b = p + (k : ℚ) * ctx.sliderSize := by
  have heq := earlier_shift_eq ctx p b
  set c : ℤ := ⌈|p - getLimit ctx b| / ctx.sliderSize⌉ with hc
  rcases lt_trichotomy (p - getLimit ctx b) 0 with h | h | h
  · refine ⟨c, ?_⟩
    rw [heq]
    have hs : sign (p - getLimit ctx b) = -1 := by
      simp only [sign]
      rw [if_neg (by linarith), if_pos h]
    rw [hs]
    ring
  · refine ⟨0, ?_⟩
    rw [heq]
    have hs : sign (p - getLimit ctx b) = 0 := by
      simp only [sign]
      rw [if_neg (by linarith), if_neg (by linarith)]
    rw [hs]
    push_cast
    ring
  · refine ⟨-c, ?_⟩
    rw [heq]
    have hs : sign (p - getLimit ctx b) = 1 := by
      simp only [sign]
      rw [if_pos h]
    rw [hs]
    push_cast
    ring

/-- The revised shift changes the position by an integer multiple of the
cycle length, provided the orientation factor is a sign. -/
theorem revised_shift_sub (ctx : MoveCtx) (p : ℚ) (b : Bool)
    (hsg : ctx.osign = 1 ∨ ctx.osign = -1) :
    ∃ k : ℤ, Revised.shift ctx p b = p + (k : ℚ) * ctx.sliderSize := by
  have heq := revised_shift_eq ctx p b
  set c : ℤ := ⌈|p - getLimit ctx b| / ctx.sliderSize⌉ with hc
  set c2 : ℤ := if c = 0 then 1 else c with hc2
  rcases hsg with h | h
  · cases b
    · refine ⟨c2, ?_⟩
      rw [heq]
      simp only [orient, h, one_mul, Bool.false_eq_true, if_false]
      ring
    · refine ⟨-c2, ?_⟩
      rw [heq]
      simp only [orient, h, one_mul, if_true]
      push_cast
      ring
  · cases b
    · refine ⟨-c2, ?_⟩
      rw [heq]
      simp only [orient, h, Bool.false_eq_true, if_false]
      push_cast
      ring
    · refine ⟨c2, ?_⟩
      rw [heq]
      simp only [orient, h, if_true]
      ring

/-- Claim C3: shift is a bijection modulo the cycle length: a backwards
shift followed by a forwards shift lands an exact integer multiple of
sliderSize() away from the original position, in both designs. -/
theorem shift_roundtrip_mod (ctx : MoveCtx) (p : ℚ)
    (hsize : 0 < ctx.sliderSize) (hsg : ctx.osign = 1 ∨ ctx.osign = -1) :
    (∃ k : ℤ, Revised.shift ctx (Revised.shift ctx p true) false =
      p + (k : ℚ) * ctx.sliderSize) ∧
    (∃ k : ℤ, Earlier.shift ctx (Earlier.shift ctx p true) false =
      p + (k : ℚ) * ctx.sliderSize) := by
  constructor
  · obtain ⟨k1, h1⟩ := revised_shift_sub ctx p true hsg
    obtain ⟨k2, h2⟩ := revised_shift_sub ctx (Revised.shift ctx p true) false hsg
    refine ⟨k2 + k1, ?_⟩
    rw [h2, h1]
    push_cast
    ring
  · obtain ⟨k1, h1⟩ := earlier_shift_sub ctx p true
    obtain ⟨k2, h2⟩ := earlier_shift_sub ctx (Earlier.shift ctx p true) false
    refine ⟨k2 + k1, ?_⟩
    rw [h2, h1]
    push_cast
    ring

/-- Witness for shift_roundtrip_mod at the concrete loop context. -/
theorem shift_roundtrip_mod_witness :
    (0 : ℚ) < ctxLoop.sliderSize ∧
    ((∃ k : ℤ, Revised.shift ctxLoop (Revised.shift ctxLoop 10 true) false =
       10 + (k : ℚ) * ctxLoop.sliderSize) ∧
     (∃ k : ℤ, Earlier.shift ctxLoop (Earlier.shift ctxLoop 10 true) false =
       10 + (k : ℚ) * ctxLoop.sliderSize)) :=
  ⟨by norm_num [ctxLoop], shift_roundtrip_mod ctxLoop 10 (by norm_num [ctxLoop]) (Or.inl rfl)⟩

/-- Claim C5: the revised shift equals position - orient(size * max(1,
ceil(|excess| / size))) * (1 if backwards else -1), and in particular it is
never a no-op, even when the excess is zero. -/
theorem revised_shift_formula (ctx : MoveCtx) (p : ℚ) (b : Bool)
    (hsize : 0 < ctx.sliderSize) (hsg : ctx.osign = 1 ∨ ctx.osign = -1) :
    Revised.shift ctx p b =
      p - orient ctx (ctx.sliderSize *
          ((max 1 ⌈|p - getLimit ctx b| / ctx.sliderSize⌉ : ℤ) : ℚ)) *
        (if b then 1 else -1) ∧
    Revised.shift ctx p b ≠ p := by
  have hc0 : (0 : ℤ) ≤ ⌈|p - getLimit ctx b| / ctx.sliderSize⌉ :=
    Int.ceil_nonneg (div_nonneg (abs_nonneg _) hsize.le)
  have hmax : (if (⌈|p - getLimit ctx b| / ctx.sliderSize⌉ : ℤ) = 0 then 1
      else (⌈|p - getLimit ctx b| / ctx.sliderSize⌉ : ℤ)) =
      max 1 ⌈|p - getLimit ctx b| / ctx.sliderSize⌉ := by
    rcases eq_or_lt_of_le hc0 with h | h
    · rw [if_pos h.symm]
      omega
    · rw [if_neg (by omega)]
      omega
  have heq : Revised.shift ctx p b =
      p - orient ctx (ctx.sliderSize *
          ((max 1 ⌈|p - getLimit ctx b| / ctx.sliderSize⌉ : ℤ) : ℚ)) *
        (if b then 1 else -1) := by
    rw [revised_shift_eq, hmax]
  refine ⟨heq, ?_⟩
  rw [heq, ne_eq, sub_eq_self]
  have hm1 : (1 : ℚ) ≤ ((max 1 ⌈|p - getLimit ctx b| / ctx.sliderSize⌉ : ℤ) : ℚ) := by
    exact_mod_cast le_max_left 1 ⌈|p - getLimit ctx b| / ctx.sliderSize⌉
  have hpos : 0 < ctx.sliderSize *
      ((max 1 ⌈|p - getLimit ctx b| / ctx.sliderSize⌉ : ℤ) : ℚ) :=
    mul_pos hsize (lt_of_lt_of_le zero_lt_one hm1)
  rcases hsg with h | h <;> cases b <;>
    simp only [orient, h, one_mul, neg_mul, if_true, Bool.false_eq_true, if_false,
      mul_neg, mul_one, neg_neg, neg_eq_zero] <;>
    linarith

/-- Witness for revised_shift_formula at the concrete loop context. -/
theorem revised_shift_formula_witness :
    (0 : ℚ) < ctxLoop.sliderSize ∧
    (Revised.shift ctxLoop 10 true =
      10 - orient ctxLoop (ctxLoop.sliderSize *
          ((max 1 ⌈|10 - getLimit ctxLoop true| / ctxLoop.sliderSize⌉ : ℤ) : ℚ)) *
        (if true then 1 else -1) ∧
     Revised.shift ctxLoop 10 true ≠ 10) :=
  ⟨by norm_num [ctxLoop],
   revised_shift_formula ctxLoop 10 true (by norm_num [ctxLoop]) (Or.inl rfl)⟩

/-- The scan on an empty registry returns the best index so far. -/
theorem toIndexGo_nil (ctx : MoveCtx) (pos : ℚ) (idx : ℤ) (minD : Option ℚ) :
    toIndexGo ctx pos [] idx minD = idx := rfl

/-- The first slide always improves on the initial Infinity. -/
theorem toIndexGo_cons_none (ctx : MoveCtx) (pos : ℚ) (s : ℤ) (l : List ℤ) (idx : ℤ) :
    toIndexGo ctx pos (s :: l) idx none =
      toIndexGo ctx pos l s (some |toPosition ctx s true - pos|) := rfl

/-- A slide whose distance does not worsen takes over as the best index. -/
theorem toIndexGo_cons_le (ctx : MoveCtx) (pos : ℚ) (s : ℤ) (l : List ℤ) (idx : ℤ)
    (m : ℚ) (h : |toPosition ctx s true - pos| ≤ m) :
    toIndexGo ctx pos (s :: l) idx (some m) =
      toIndexGo ctx pos l s (some |toPosition ctx s true - pos|) := by
  simp only [toIndexGo]
  rw [if_pos h]

/-- A slide whose distance is strictly worse stops the scan. -/
theorem toIndexGo_cons_gt (ctx : MoveCtx) (pos : ℚ) (s : ℤ) (l : List ℤ) (idx : ℤ)
    (m : ℚ) (h : ¬ |toPosition ctx s true - pos| ≤ m) :
    toIndexGo ctx pos (s :: l) idx (some m) = idx := by
  simp only [toIndexGo]
  rw [if_neg h]

theorem myRangeZ_zero (a : ℕ) : myRangeZ a 0 = [] := rfl

theorem myRangeZ_succ (a k : ℕ) : myRangeZ a (k + 1) = (a : ℤ) :: myRangeZ (a + 1) k := by
  simp [myRangeZ, List.range'_succ]

/-- Core property of the short-circuited scan: if the distances are weakly
non-increasing along the registry up to slide jstar and the next slide
after jstar (if any) is strictly worse, the scan started anywhere at or
before jstar with a current minimum not better than the distance at the
start returns jstar. -/
theorem toIndexGo_prefix_min (ctx : MoveCtx) (pos : ℚ) (n jstar : ℕ)
    (hdec : ∀ t : ℕ, t < jstar →
      |toPosition ctx ((t : ℤ) + 1) true - pos| ≤ |toPosition ctx (t : ℤ) true - pos|)
    (hbrk : jstar + 1 < n →
      |toPosition ctx ((jstar : ℤ) + 1) true - pos| > |toPosition ctx (jstar : ℤ) true - pos|)
    (hjn : jstar < n) :
    ∀ (k a : ℕ) (idx : ℤ) (m : ℚ), a + k = n → a ≤ jstar →
      |toPosition ctx (a : ℤ) true - pos| ≤ m →
      toIndexGo ctx pos (myRangeZ a k) idx (some m) = (jstar : ℤ) := by
  intro k
  induction k with
  | zero =>
    intro a idx m hak ha _
    omega
  | succ k ih =>
    intro a idx m hak ha hm
    rw [myRangeZ_succ, toIndexGo_cons_le ctx pos _ _ _ _ hm]
    rcases Nat.lt_or_ge a jstar with hlt | hge
    · apply ih (a + 1) (a : ℤ) _ (by omega) (by omega)
      rw [show ((a + 1 : ℕ) : ℤ) = (a : ℤ) + 1 by push_cast; ring]
      exact hdec a hlt
    · have haeq : a = jstar := by omega
      subst haeq
      cases k with
      | zero => rw [myRangeZ_zero, toIndexGo_nil]
      | succ k2 =>
        rw [myRangeZ_succ]
        apply toIndexGo_cons_gt
        rw [show ((a + 1 : ℕ) : ℤ) = (a : ℤ) + 1 by push_cast; ring]
        exact not_le.mpr (hbrk (by omega))

/-- The contract of the short-circuited toIndex scan: it returns the last
slide of the maximal weakly-improving front of the distance sequence.  In
particular ties within that front are resolved to the later slide. -/
theorem toIndex_prefix_min (ctx : MoveCtx) (pos : ℚ) (n jstar : ℕ)
    (hslides : ctx.slides = myRangeZ 0 n)
    (hdec : ∀ t : ℕ, t < jstar →
      |toPosition ctx ((t : ℤ) + 1) true - pos| ≤ |toPosition ctx (t : ℤ) true - pos|)
    (hbrk : jstar + 1 < n →
      |toPosition ctx ((jstar : ℤ) + 1) true - pos| > |toPosition ctx (jstar : ℤ) true - pos|)
    (hjn : jstar < n) :
    toIndex ctx pos = (jstar : ℤ) := by
  unfold toIndex
  rw [hslides]
  obtain ⟨n2, rfl⟩ : ∃ n2, n = n2 + 1 := ⟨n - 1, by omega⟩
  rw [myRangeZ_succ, toIndexGo_cons_none]
  rcases Nat.eq_zero_or_pos jstar with h0 | hpos
  · subst h0
    cases n2 with
    | zero => rw [myRangeZ_zero, toIndexGo_nil]
    | succ n3 =>
      rw [myRangeZ_succ]
      apply toIndexGo_cons_gt
      have h01 := hbrk (by omega)
      norm_num at h01 ⊢
      exact h01
  · apply toIndexGo_prefix_min ctx pos (n2 + 1) jstar hdec hbrk hjn n2 1 _ _ (by omega)
      (by omega)
    have h01 := hdec 0 hpos
    norm_num at h01 ⊢
    exact h01

/-- The untrimmed position, unfolded. -/
theorem toPosition_false_eq (ctx : MoveCtx) (index : ℤ) :
    toPosition ctx index false =
      orient ctx (ctx.totalSize (index - 1) - offset ctx index) := rfl

/-- Counterexample to claim C2 as stated: two slides at positions 0 and
100 are both at the minimal distance 50 from the query position 50, yet
toIndex returns slide 1, the later-scanned index, not slide 0. -/
theorem toIndex_tie_cex :
    |toPosition ctxTie 0 true - 50| = |toPosition ctxTie 1 true - 50| ∧
    toIndex ctxTie 50 = 1 := by
  constructor <;>
    norm_num [toIndex, toIndexGo, toPosition, trim, offset, orient, clamp, ctxTie]

/-- Claim C2 (amended): the scan walks the registry in ascending order
tracking the minimum distance and stops at the first strict worsening; when
two candidate indices achieve the same minimal distance, the later-scanned
(higher) index is the one returned. -/
theorem toIndex_tie_later_wins (ctx : MoveCtx) (pos : ℚ) (n i : ℕ)
    (hslides : ctx.slides = myRangeZ 0 n)
    (hdec : ∀ t : ℕ, t < i →
      |toPosition ctx ((t : ℤ) + 1) true - pos| ≤ |toPosition ctx (t : ℤ) true - pos|)
    (htie : |toPosition ctx ((i : ℤ) + 1) true - pos| = |toPosition ctx (i : ℤ) true - pos|)
    (hbrk : i + 2 < n →
      |toPosition ctx ((i : ℤ) + 1 + 1) true - pos| > |toPosition ctx ((i : ℤ) + 1) true - pos|)
    (hin : i + 1 < n) :
    toIndex ctx pos = (i : ℤ) + 1 := by
  have hc1 : ((i + 1 : ℕ) : ℤ) = (i : ℤ) + 1 := by push_cast; ring
  have hdec2 : ∀ t : ℕ, t < i + 1 →
      |toPosition ctx ((t : ℤ) + 1) true - pos| ≤ |toPosition ctx (t : ℤ) true - pos| := by
    intro t ht
    rcases Nat.lt_or_ge t i with h1 | h1
    · exact hdec t h1
    · have : t = i := by omega
      subst this
      exact le_of_eq htie
  have hbrk2 : (i + 1) + 1 < n →
      |toPosition ctx (((i + 1 : ℕ) : ℤ) + 1) true - pos| >
        |toPosition ctx ((i + 1 : ℕ) : ℤ) true - pos| := by
    intro h2
    rw [hc1]
    exact hbrk (by omega)
  have h := toIndex_prefix_min ctx pos n (i + 1) hslides hdec2 hbrk2 hin
  rw [h, hc1]

/-- Witness for toIndex_tie_later_wins: the tie of ctxTie at query 50. -/
theorem toIndex_tie_later_wins_witness :
    |toPosition ctxTie 1 true - 50| = |toPosition ctxTie 0 true - 50| ∧
    toIndex ctxTie 50 = 1 := by
  have htie : |toPosition ctxTie (((0 : ℕ) : ℤ) + 1) true - 50| =
      |toPosition ctxTie ((0 : ℕ) : ℤ) true - 50| := by
    norm_num [toPosition, trim, offset, orient, clamp, ctxTie]
  have h := toIndex_tie_later_wins ctxTie 50 2 0 (by decide)
    (by intro t ht; exact absurd ht (Nat.not_lt_zero t)) htie
    (by intro h2; exact absurd h2 (by omega)) (by omega)
  norm_num at htie h
  exact ⟨htie, h⟩

/-- Counterexample to claim C1 as stated: in ctxRT the slide sizes are all
100 and the trimming clamp does not alter the position of slide 3 (it is
-300, exactly the edge of the trim band), yet the clamp moves slide 4 onto
the same position, so the scan ties and returns 4 instead of 3. -/
theorem toIndex_roundtrip_cex :
    ctxRT.slideSize 3 = ctxRT.slideSize 4 ∧
    toPosition ctxRT 3 true = toPosition ctxRT 3 false ∧
    toIndex ctxRT (toPosition ctxRT 3 true) = 4 := by
  refine ⟨rfl, ?_, ?_⟩ <;>
    norm_num [toIndex, toIndexGo, toPosition, trim, offset, orient, clamp, ctxRT]

/-- Claim C1 (amended): for every slide index i in the registry 0..n-1, if
all slide sizes are uniform (common positive step S) and the trimming
clamp does not alter the trimmed position of any slide in the registry,
then toIndex(toPosition(i, true)) returns i. -/
theorem toIndex_toPosition_roundtrip (ctx : MoveCtx) (n i : ℕ) (S sz szg : ℚ)
    (hslides : ctx.slides = myRangeZ 0 n)
    (hS : 0 < S)
    (hsg : ctx.osign = 1 ∨ ctx.osign = -1)
    (htotal : ∀ j : ℤ, 0 ≤ j → j < (n : ℤ) → ctx.totalSize (j - 1) = (j : ℚ) * S)
    (hsz : ∀ j : ℤ, 0 ≤ j → j < (n : ℤ) → ctx.slideSize j = sz)
    (hszg : ∀ j : ℤ, 0 ≤ j → j < (n : ℤ) → ctx.slideSizeGap j = szg)
    (htrim : ∀ j : ℤ, 0 ≤ j → j < (n : ℤ) → toPosition ctx j true = toPosition ctx j false)
    (hi : i < n) :
    toIndex ctx (toPosition ctx (i : ℤ) true) = (i : ℤ) := by
  have hi0 : (0 : ℤ) ≤ (i : ℤ) := by omega
  have hiN : (i : ℤ) < (n : ℤ) := by omega
  have hoff : ∀ j : ℤ, 0 ≤ j → j < (n : ℤ) → offset ctx j = offset ctx (i : ℤ) := by
    intro j h1 h2
    cases hfoc : ctx.focus with
    | center => simp [offset, hfoc, hszg j h1 h2, hszg _ hi0 hiN]
    | num f => simp [offset, hfoc, hsz j h1 h2, hsz _ hi0 hiN]
  have hpos : ∀ j : ℤ, 0 ≤ j → j < (n : ℤ) →
      toPosition ctx j true = ctx.osign * ((j : ℚ) * S - offset ctx (i : ℤ)) := by
    intro j h1 h2
    rw [htrim j h1 h2, toPosition_false_eq, htotal j h1 h2, hoff j h1 h2, orient]
  set pos := toPosition ctx (i : ℤ) true with hq
  have hqe : pos = ctx.osign * ((i : ℚ) * S - offset ctx (i : ℤ)) := hpos _ hi0 hiN
  have habs : |ctx.osign| = 1 := by
    rcases hsg with h | h <;> rw [h] <;> norm_num
  have hd : ∀ j : ℤ, 0 ≤ j → j < (n : ℤ) →
      |toPosition ctx j true - pos| = |(j : ℚ) - (i : ℚ)| * S := by
    intro j h1 h2
    rw [hpos j h1 h2, hqe,
      show ctx.osign * ((j : ℚ) * S - offset ctx (i : ℤ)) -
          ctx.osign * ((i : ℚ) * S - offset ctx (i : ℤ)) =
        ctx.osign * (((j : ℚ) - (i : ℚ)) * S) by ring,
      abs_mul, habs, one_mul, abs_mul, abs_of_pos hS]
  apply toIndex_prefix_min ctx pos n i hslides ?_ ?_ hi
  · intro t ht
    rw [hd ((t : ℤ) + 1) (by omega) (by omega), hd (t : ℤ) (by omega) (by omega)]
    apply mul_le_mul_of_nonneg_right _ hS.le
    push_cast
    have htQ : (t : ℚ) + 1 ≤ (i : ℚ) := by exact_mod_cast ht
    rw [abs_of_nonpos (by linarith), abs_of_nonpos (by linarith)]
    linarith
  · intro hbr
    rw [hd ((i : ℤ) + 1) (by omega) (by omega), hd (i : ℤ) (by omega) (by omega)]
    push_cast
    rw [show ((i : ℚ) + 1 - (i : ℚ)) = 1 by ring, show ((i : ℚ) - (i : ℚ)) = 0 by ring]
    norm_num
    exact hS

/-- Witness for toIndex_toPosition_roundtrip: the uniform untrimmed
context ctxFive at slide 2. -/
theorem toIndex_toPosition_roundtrip_witness :
    (0 : ℚ) < 100 ∧ ctxFive.slides = myRangeZ 0 5 ∧
    toIndex ctxFive (toPosition ctxFive 2 true) = 2 := by
  refine ⟨by norm_num, by decide, ?_⟩
  have h := toIndex_toPosition_roundtrip ctxFive 5 2 100 100 100 (by decide) (by norm_num)
    (Or.inl rfl)
    (by
      intro j h1 h2
      show ((j - 1 + 1 : ℤ) : ℚ) * 100 = (j : ℚ) * 100
      push_cast
      ring)
    (fun j _ _ => rfl) (fun j _ _ => rfl)
    (by intro j _ _; simp [toPosition, trim, ctxFive]) (by omega)
  norm_num at h
  exact h

end Splide
